import Mathlib

/-
Verification of the form-parser encoding engine (parser.go).

The Go source flattens a struct value into a list of string key/value
pairs using runtime reflection.  We embed the reflected runtime values as
the inductive type `Value` below: each constructor corresponds to a
`reflect.Kind` (plus the exact slice types `[]byte` and `[]string`,
which the source distinguishes from other slices with type assertions,
and `vFunc` standing for any kind with no registered encoder).
Panics of the source (unsupported kind) are modelled as `Except` errors,
following the spec's error vocabulary (`InvalidRoot`, `UnsupportedKind`).
-/

namespace formparser

/-- One flat output pair, `type KV struct { K, V string }` (parser.go:299-302). -/
structure KV where
  K : String
  V : String
deriving DecidableEq, Repr

/-- Error vocabulary of the spec (section 7).  `invalidRoot` is the error returned
by `parse` when the root is not a struct (parser.go:95); `unsupportedKind` models
the panic `Unknown type` in `encode` (parser.go:138). -/
inductive EncodeError where
  | invalidRoot
  | unsupportedKind
deriving DecidableEq, Repr

/-- Shallow embedding of the reflected Go values the encoder dispatches on
(parser.go:144-166).

* `vStr`, `vBool`, `vInt`, `vUint` — primitive kinds; `vInt` covers the signed
  integer kinds (all rendered base-10 via `strconv`), `vUint` the unsigned ones.
  The floating/complex kinds are orthogonal to every claim and are omitted.
* `vBytes bs` — a value of exact type `[]byte` (the type assertion
  `v.Interface().([]byte)` at parser.go:236 succeeds exactly for this type).
* `vStrSlice ss` — a value of exact type `[]string` (assertion at parser.go:241).
* `vSlice elems` — any other slice value (`reflect.Slice`), elements in order.
* `vArray elems` — any array value (`reflect.Array`); note that for an array the
  type assertions `.([]byte)` / `.([]string)` fail, so arrays always take the
  general element loop of `encodeSlice`.
* `vStruct fields` — a struct; each field is (declared name, raw tag string under
  the configured tag name, field value).  `reflect` returns "" both for an absent
  and for an empty tag, so a plain `String` suffices for the tag.
* `vMap entries` — a map; Go map iteration order is unspecified, the list fixes
  one iteration order.
* `vPtr` — a pointer; `vPtr none` is a nil pointer, whose `Elem()` is `vInvalid`.
* `vInvalid` — `reflect.Invalid`.
* `vFunc` — a value of a kind with no registered encoder (e.g. `reflect.Func`). -/
inductive Value where
  | vStr : String → Value
  | vBool : Bool → Value
  | vInt : Int → Value
  | vUint : Nat → Value
  | vBytes : List Nat → Value
  | vStrSlice : List String → Value
  | vSlice : List Value → Value
  | vArray : List Value → Value
  | vStruct : List (String × String × Value) → Value
  | vMap : List (Value × Value) → Value
  | vPtr : Option Value → Value
  | vInvalid : Value
  | vFunc : Value

/-- The encoder configuration, `type FormParser struct` (parser.go:36-45).
The `encoders` dispatch table is realised by the match in `encode` below.
The `tag` name only selects which struct tag is read; in the embedding each
field carries the raw tag string under that name directly, so only
`ignoreFlag` influences behaviour. -/
structure FormParser where
  tag : String
  ignoreFlag : String

/-- Constructor `New` (parser.go:51-63): panics on an empty `tag` or `ignoreFlag`,
modelled as `none`. -/
def New (tag ignoreFlag : String) : Option FormParser :=
  if tag.length ≤ 0 then none
  else if ignoreFlag.length ≤ 0 then none
  else some ⟨tag, ignoreFlag⟩

/-- Constructor `Default` (parser.go:47-49): `New("zwf", "-")`, which always succeeds. -/
def Default : FormParser :=
  ⟨"zwf", "-"⟩

/-- The pointer-elimination loop `for v.Kind() == reflect.Ptr { v = v.Elem() }`
(parser.go:102-104 and 132-134).  `Elem()` of a nil pointer is the Invalid
value, which stops the loop. -/
def unwrapPtr : Value → Value
  | .vPtr (some v) => unwrapPtr v
  | .vPtr none => .vInvalid
  | v => v

/-- Kind test `field.Kind() == reflect.Invalid` (parser.go:105). -/
def Value.isInvalid : Value → Bool
  | .vInvalid => true
  | _ => false

/-- Kind test `rv.Kind() == reflect.Struct` (parser.go:90). -/
def Value.isStruct : Value → Bool
  | .vStruct _ => true
  | _ => false

/-- Tag resolution `fieldTag` (parser.go:120-129): resolve a field's effective key and drop
decision from its declared name and raw tag string. -/
def fieldTag (p : FormParser) (name tag : String) : String × Bool :=
  if tag = p.ignoreFlag then (tag, true)
  else if tag = "" then (name, false)
  else (tag, false)

/-- Character-level splitting on a comma, the semantics of
`strings.Split(tagK, ",")` (parser.go:243). -/
def splitCommaChars : List Char → List (List Char)
  | [] => [[]]
  | c :: rest =>
      if c = ',' then [] :: splitCommaChars rest
      else
        match splitCommaChars rest with
        | [] => [[c]]
        | g :: gs => (c :: g) :: gs

/-- Semantics of `strings.Split(s, ",")`. -/
def splitComma (s : String) : List String :=
  (splitCommaChars s.data).map String.mk

/-- Semantics of `strings.Join(l, ",")` (parser.go:245). -/
def joinComma : List String → String
  | [] => ""
  | [s] => s
  | s :: rest => s ++ "," ++ joinComma rest

/-- Character of the standard base64 alphabet (RFC 4648, used by
`base64.StdEncoding`). -/
def base64Char (n : Nat) : Char :=
  "ABCDEFGHIJKLMNOPQRSTUVWXYZabcdefghijklmnopqrstuvwxyz0123456789+/".data.getD n '='

/-- Semantics of `base64.StdEncoding.EncodeToString` (parser.go:238) on a byte list:
three input bytes become four alphabet characters, a final group of one or
two bytes is padded with `=`. -/
def base64Encode : List Nat → String
  | [] => ""
  | [b0] =>
      String.mk [base64Char (b0 / 4 % 64), base64Char (b0 % 4 * 16), '=', '=']
  | [b0, b1] =>
      String.mk [base64Char (b0 / 4 % 64), base64Char (b0 % 4 * 16 + b1 / 16),
                 base64Char (b1 % 16 * 4), '=']
  | b0 :: b1 :: b2 :: rest =>
      String.mk [base64Char (b0 / 4 % 64), base64Char (b0 % 4 * 16 + b1 / 16),
                 base64Char (b1 % 16 * 4 + b2 / 64), base64Char (b2 % 64)]
        ++ base64Encode rest

/-- The general element loop of `encodeSlice` (parser.go:249-251) specialised
to a `[]string` value that did not take the join branch: each element is a
string, and `encode` on a string kind emits exactly the one pair
`{tagK.i: element}` (`encodeString`, parser.go:170-172). -/
def encodeStrElems (tagK : String) : List String → Nat → List KV
  | [], _ => []
  | s :: rest, i => ⟨tagK ++ "." ++ toString i, s⟩ :: encodeStrElems tagK rest (i + 1)

mutual

/-- Dispatch `encode` (parser.go:131-141): eliminate pointers, then dispatch on the
value's kind through the `encoders` table (parser.go:144-166).  The bodies of
the kind encoders are inlined at their dispatch entry:

* string/bool/int/uint branches — `encodeString`, `encodeBool`, `encodeInt`...
  (parser.go:170-216), one pair with the canonical base-10 / true-false text;
* `vBytes` — the `[]byte` type-assertion branch of `encodeSlice`
  (parser.go:236-239), one pair holding the base64 text;
* `vStrSlice` — the `[]string` branch (parser.go:241-247): when the tag has a
  second comma-separated segment equal to `join`, one pair keyed by the first
  segment holding the comma-joined elements, otherwise the general element
  loop;
* `vSlice` / `vArray` — the general element loop of `encodeSlice`
  (parser.go:249-251);
* `vStruct` — `encodeStruct` (parser.go:255-268): it calls `p.parse(v)`, which
  on a struct value is exactly `parseFields` of its fields (the root unwrap
  loop is the identity there and cannot fail), then rewrites each inner key
  through the inheritance rule `tagK + "." + k`, skipped when `tagK == "..."`;
  its panic on a nested parse failure is the propagated error;
* `vMap` — `encodeMap` (parser.go:270-290) via `encodeMapEntries`;
* `vPtr none` / `vInvalid` — `encodeInvalid` (parser.go:292-295), no pairs;
* `vFunc` — no registered encoder: panic `Unknown type` (parser.go:137-139),
  modelled as the `unsupportedKind` error. -/
def encode (p : FormParser) (v : Value) (tagK : String) : Except EncodeError (List KV) :=
  match v with
  | .vPtr (some w) => encode p w tagK
  | .vPtr none => .ok []
  | .vInvalid => .ok []
  | .vStr s => .ok [⟨tagK, s⟩]
  | .vBool b => .ok [⟨tagK, if b then "true" else "false"⟩]
  | .vInt n => .ok [⟨tagK, toString n⟩]
  | .vUint n => .ok [⟨tagK, toString n⟩]
  | .vBytes bs => .ok [⟨tagK, base64Encode bs⟩]
  | .vStrSlice ss =>
      if (splitComma tagK).length > 1 ∧ (splitComma tagK).getD 1 "" = "join" then
        .ok [⟨(splitComma tagK).getD 0 "", joinComma ss⟩]
      else
        .ok (encodeStrElems tagK ss 0)
  | .vSlice elems => encodeSliceElems p tagK elems 0
  | .vArray elems => encodeSliceElems p tagK elems 0
  | .vStruct fields =>
      match parseFields p fields with
      | .error e => .error e
      | .ok kvs =>
          .ok (kvs.map fun kv => if tagK = "..." then kv else ⟨tagK ++ "." ++ kv.K, kv.V⟩)
  | .vMap entries => encodeMapEntries p entries tagK
  | .vFunc => .error .unsupportedKind

/-- The field loop of `parse` (parser.go:98-117): per field, eliminate
pointers and skip the field if the result is Invalid (a nil pointer field);
skip it if its tag equals the ignore flag; otherwise append the pairs of
`encode` on the field value under the resolved key.  The source passes the
already-unwrapped field value to `encode`; since `encode` begins with the
same pointer-elimination loop, passing the original value is equivalent
(lemma `encode_unwrapPtr` below). -/
def parseFields (p : FormParser) (fields : List (String × String × Value)) :
    Except EncodeError (List KV) :=
  match fields with
  | [] => .ok []
  | (n, t, fv) :: rest =>
      if (unwrapPtr fv).isInvalid then parseFields p rest
      else if (fieldTag p n t).2 then parseFields p rest
      else
        match encode p fv (fieldTag p n t).1 with
        | .error e => .error e
        | .ok kvs =>
            match parseFields p rest with
            | .error e => .error e
            | .ok kvs2 => .ok (kvs ++ kvs2)

/-- The general element loop of `encodeSlice` (parser.go:249-251): element `i`
is encoded under the synthesized key `fmt.Sprintf("%s.%d", tagK, i)`, results
appended in index order. -/
def encodeSliceElems (p : FormParser) (tagK : String) (elems : List Value) (i : Nat) :
    Except EncodeError (List KV) :=
  match elems with
  | [] => .ok []
  | e :: rest =>
      match encode p e (tagK ++ "." ++ toString i) with
      | .error err => .error err
      | .ok kvs =>
          match encodeSliceElems p tagK rest (i + 1) with
          | .error err => .error err
          | .ok kvs2 => .ok (kvs ++ kvs2)

/-- The entry loop of `encodeMap` (parser.go:270-290): for each entry, encode
the key and the value with an empty working key, then emit the cross product
of the two pair lists, each pair keyed by the composition of `tagK` with the
rendered key text (no prefix when `tagK == "..."`) and carrying the rendered
value text. -/
def encodeMapEntries (p : FormParser) (entries : List (Value × Value)) (tagK : String) :
    Except EncodeError (List KV) :=
  match entries with
  | [] => .ok []
  | (k, val) :: rest =>
      match encode p k "" with
      | .error e => .error e
      | .ok keyPair =>
          match encode p val "" with
          | .error e => .error e
          | .ok valPair =>
              match encodeMapEntries p rest tagK with
              | .error e => .error e
              | .ok kvs2 =>
                  .ok ((keyPair.flatMap fun key => valPair.map fun vl =>
                        if tagK = "..." then KV.mk key.V vl.V else KV.mk (tagK ++ "." ++ key.V) vl.V) ++ kvs2)

end

/-- Entry point `parse` (parser.go:89-118): the root loop unwraps pointer layers; a root
that does not resolve to a struct (including a nil pointer, whose `Elem()` is
Invalid) yields the error `Param obj is invalid...` (parser.go:95), modelled
as `invalidRoot`; a struct root is processed by the field loop
(`parseFields`). -/
def parse (p : FormParser) : Value → Except EncodeError (List KV)
  | .vStruct fields => parseFields p fields
  | .vPtr (some v) => parse p v
  | _ => .error .invalidRoot

/-- Go map assignment `m[k] = v` on the model of `map[string]string` as a
key-unique association list: overwrite the binding if the key is present,
otherwise add it. -/
def mapAssign : List KV → String → String → List KV
  | [], k, v => [⟨k, v⟩]
  | kv :: rest, k, v =>
      if kv.K = k then ⟨k, v⟩ :: rest else kv :: mapAssign rest k v

/-- Lookup in the association-list model of `map[string]string`. -/
def mapGet : List KV → String → Option String
  | [], _ => none
  | kv :: rest, k => if kv.K = k then some kv.V else mapGet rest k

/-- Convenience `ToMap` (parser.go:66-77): parse, then fold the ordered pair list into a
map, later assignments overwriting earlier ones. -/
def ToMap (p : FormParser) (v : Value) : Except EncodeError (List KV) :=
  match parse p v with
  | .error e => .error e
  | .ok kvs => .ok (kvs.foldl (fun m kv => mapAssign m kv.K kv.V) [])

/-- The value of the last pair of `kvs` bearing key `k`, if any: the reference
meaning of last-write-wins folding. -/
def lastWins : List KV → String → Option String
  | [], _ => none
  | kv :: rest, k =>
      match lastWins rest k with
      | some v => some v
      | none => if kv.K = k then some kv.V else none

/-- The field loop of `parse` passes the pointer-eliminated field value to
`encode` (parser.go:115); `encode` begins with the same elimination loop
(parser.go:132-134), so the two ways of calling it agree. -/
theorem encode_unwrapPtr (p : FormParser) (tagK : String) :
    ∀ v : Value, encode p (unwrapPtr v) tagK = encode p v tagK
  | .vPtr (some w) => encode_unwrapPtr p tagK w
  | .vPtr none => rfl
  | .vStr _ => rfl
  | .vBool _ => rfl
  | .vInt _ => rfl
  | .vUint _ => rfl
  | .vBytes _ => rfl
  | .vStrSlice _ => rfl
  | .vSlice _ => rfl
  | .vArray _ => rfl
  | .vStruct _ => rfl
  | .vMap _ => rfl
  | .vInvalid => rfl
  | .vFunc => rfl

/-- A tag that is neither the ignore flag nor empty resolves to itself, not dropped. -/
theorem fieldTag_eq (p : FormParser) (n t : String) (h1 : t ≠ p.ignoreFlag) (h2 : t ≠ "") :
    fieldTag p n t = (t, false) := by
  simp [fieldTag, h1, h2]

/-- A struct with one field whose tag is neither the ignore flag nor empty and
whose value is not elided encodes as `encode` of that value under the tag. -/
theorem parse_single (p : FormParser) (n t : String) (v : Value)
    (h1 : t ≠ p.ignoreFlag) (h2 : t ≠ "") (h3 : (unwrapPtr v).isInvalid = false) :
    parse p (.vStruct [(n, t, v)]) = encode p v t := by
  show parseFields p [(n, t, v)] = encode p v t
  simp only [parseFields, h3, fieldTag_eq p n t h1 h2, Bool.false_eq_true, if_false]
  cases he : encode p v t with
  | error e => simp
  | ok kvs => simp

/-- Claim C4: for every nested struct-typed field, each KV produced by
recursively encoding the inner struct has its key composed with the field's
effective key: left unchanged when the effective key is the suppression
marker `...`, otherwise prefixed with `effectiveKey ++ "."`. -/
theorem c4_theorem (p : FormParser) (n t : String)
    (fields : List (String × String × Value)) (kvs : List KV)
    (h1 : t ≠ p.ignoreFlag) (h2 : t ≠ "")
    (h3 : parse p (.vStruct fields) = .ok kvs) :
    parse p (.vStruct [(n, t, .vStruct fields)]) =
      .ok (kvs.map fun kv => if t = "..." then kv else ⟨t ++ "." ++ kv.K, kv.V⟩) := by
  rw [parse_single p n t (.vStruct fields) h1 h2 rfl]
  have h3' : parseFields p fields = .ok kvs := h3
  simp only [encode, h3']

/-- Witness for C4: the concrete nesting and suppression instances of the spec,
`{"auth": {"ak": "xxx"}}` yields key `auth.ak` and the same field tagged `...`
yields the unprefixed key `ak`. -/
theorem c4_witness :
    parse Default (.vStruct [("F", "auth", .vStruct [("AK", "ak", .vStr "xxx")])]) =
      .ok [⟨"auth.ak", "xxx"⟩] ∧
    parse Default (.vStruct [("F", "...", .vStruct [("AK", "ak", .vStr "xxx")])]) =
      .ok [⟨"ak", "xxx"⟩] := by
  constructor
  · exact c4_theorem Default "F" "auth" [("AK", "ak", .vStr "xxx")] [⟨"ak", "xxx"⟩]
      (by decide) (by decide) rfl
  · exact c4_theorem Default "F" "..." [("AK", "ak", .vStr "xxx")] [⟨"ak", "xxx"⟩]
      (by decide) (by decide) rfl

/-- A root that does not unwrap to a struct is rejected by the root loop of
`parse` (parser.go:90-96). -/
theorem parse_not_struct (p : FormParser) :
    ∀ v : Value, (unwrapPtr v).isStruct = false → parse p v = .error .invalidRoot
  | .vPtr (some w), h => parse_not_struct p w h
  | .vPtr none, _ => rfl
  | .vStruct _, h => by simp [unwrapPtr, Value.isStruct] at h
  | .vStr _, _ => rfl
  | .vBool _, _ => rfl
  | .vInt _, _ => rfl
  | .vUint _, _ => rfl
  | .vBytes _, _ => rfl
  | .vStrSlice _, _ => rfl
  | .vSlice _, _ => rfl
  | .vArray _, _ => rfl
  | .vMap _, _ => rfl
  | .vInvalid, _ => rfl
  | .vFunc, _ => rfl

/-- A root that unwraps to a struct is processed by the field loop on the
struct's fields. -/
theorem parse_struct_resolves (p : FormParser) :
    ∀ (v : Value) (fields : List (String × String × Value)),
      unwrapPtr v = .vStruct fields → parse p v = parseFields p fields
  | .vPtr (some w), fields, h => parse_struct_resolves p w fields h
  | .vPtr none, _, h => by simp [unwrapPtr] at h
  | .vStruct fs, fields, h => by
      have hf : fs = fields := by
        have h' : Value.vStruct fs = Value.vStruct fields := h
        cases h'
        rfl
      rw [show parse p (.vStruct fs) = parseFields p fs from rfl, hf]
  | .vStr _, _, h => Value.noConfusion h
  | .vBool _, _, h => Value.noConfusion h
  | .vInt _, _, h => Value.noConfusion h
  | .vUint _, _, h => Value.noConfusion h
  | .vBytes _, _, h => Value.noConfusion h
  | .vStrSlice _, _, h => Value.noConfusion h
  | .vSlice _, _, h => Value.noConfusion h
  | .vArray _, _, h => Value.noConfusion h
  | .vMap _, _, h => Value.noConfusion h
  | .vInvalid, _, h => Value.noConfusion h
  | .vFunc, _, h => Value.noConfusion h

/-- Claim C9: the encode entry point requires the root, after unwrapping any
pointer layers, to resolve to a struct kind; any other root (including an
absent one) fails with `InvalidRoot` and produces no pairs; a struct root is
handed to the struct field encoder with no incoming key prefix (a single
scalar field surfaces under exactly its resolved tag). -/
theorem c9_theorem (p : FormParser) :
    (∀ v : Value, (unwrapPtr v).isStruct = false → parse p v = .error .invalidRoot) ∧
    (∀ (v : Value) (fields : List (String × String × Value)),
      unwrapPtr v = .vStruct fields → parse p v = parseFields p fields) ∧
    (∀ n t s : String, t ≠ p.ignoreFlag → t ≠ "" →
      parse p (.vStruct [(n, t, .vStr s)]) = .ok [⟨t, s⟩]) := by
  refine ⟨parse_not_struct p, parse_struct_resolves p, fun n t s h1 h2 => ?_⟩
  rw [parse_single p n t (.vStr s) h1 h2 rfl]
  rfl

/-- Witness for C9 at concrete inputs: an integer root and a nil-pointer root
fail with `invalidRoot`, a pointer-to-struct root resolves to the field loop,
and a scalar field of a struct root carries no prefix. -/
theorem c9_witness :
    parse Default (.vInt 3) = .error .invalidRoot ∧
    parse Default (.vPtr none) = .error .invalidRoot ∧
    parse Default (.vPtr (some (.vStruct [("A", "a", .vStr "x")]))) =
      parseFields Default [("A", "a", .vStr "x")] ∧
    parse Default (.vStruct [("B", "b", .vStr "s")]) = .ok [⟨"b", "s"⟩] :=
  ⟨(c9_theorem Default).1 (.vInt 3) (by decide),
   (c9_theorem Default).1 (.vPtr none) (by decide),
   (c9_theorem Default).2.1 (.vPtr (some (.vStruct [("A", "a", .vStr "x")])))
     [("A", "a", .vStr "x")] rfl,
   (c9_theorem Default).2.2 "B" "b" "s" (by decide) (by decide)⟩

/-- Claim C10: an absent or empty byte-slice field still emits exactly one
pair, its effective key with the empty string (the base64 text of zero
bytes), while an empty sequence of any other element type without a join
modifier contributes zero pairs. -/
theorem c10_theorem (p : FormParser) (n t : String)
    (h1 : t ≠ p.ignoreFlag) (h2 : t ≠ "") :
    parse p (.vStruct [(n, t, .vBytes [])]) = .ok [⟨t, ""⟩] ∧
    parse p (.vStruct [(n, t, .vSlice [])]) = .ok [] ∧
    parse p (.vStruct [(n, t, .vArray [])]) = .ok [] ∧
    ((splitComma t).getD 1 "" ≠ "join" →
      parse p (.vStruct [(n, t, .vStrSlice [])]) = .ok []) := by
  refine ⟨?_, ?_, ?_, fun hj => ?_⟩
  · rw [parse_single p n t (.vBytes []) h1 h2 rfl]; rfl
  · rw [parse_single p n t (.vSlice []) h1 h2 rfl]; rfl
  · rw [parse_single p n t (.vArray []) h1 h2 rfl]; rfl
  · rw [parse_single p n t (.vStrSlice []) h1 h2 rfl]
    have hc : ¬((splitComma t).length > 1 ∧ (splitComma t).getD 1 "" = "join") := by
      intro hand
      exact hj hand.2
    simp only [encode, hc, if_false]
    rfl

/-- Witness for C10 at a concrete field: a nil/empty `[]byte` field tagged `j`
emits `{"j": ""}`, empty sequences of other types emit nothing. -/
theorem c10_witness :
    parse Default (.vStruct [("J", "j", .vBytes [])]) = .ok [⟨"j", ""⟩] ∧
    parse Default (.vStruct [("E", "j", .vSlice [])]) = .ok [] ∧
    parse Default (.vStruct [("S", "j", .vStrSlice [])]) = .ok [] :=
  ⟨(c10_theorem Default "J" "j" (by decide) (by decide)).1,
   (c10_theorem Default "E" "j" (by decide) (by decide)).2.1,
   (c10_theorem Default "S" "j" (by decide) (by decide)).2.2.2 (by decide)⟩

/-- Counterexample to claim C3: the claim quantifies over sequences of kind
slice OR array with single-byte element type, but the `[]byte` branch of
`encodeSlice` is entered through the type assertion `v.Interface().([]byte)`,
which fails for an array value such as `[2]byte{0x41, 0x42}`; the array
therefore takes the general element loop and yields two decimal-rendered
indexed pairs, not the single base64 pair the claim predicts. -/
theorem c3_counterexample :
    parse Default (.vStruct [("Data", "data", .vArray [.vUint 65, .vUint 66])]) =
      .ok [⟨"data.0", "65"⟩, ⟨"data.1", "66"⟩] ∧
    ([KV.mk "data.0" "65", KV.mk "data.1" "66"] : List KV) ≠ [KV.mk "data" "QUI="] :=
  ⟨rfl, by decide⟩

/-- Claim C3 as amended: for every field of exact slice type `[]byte`,
encoding produces exactly one pair, the effective key with the standard
base64 text of the bytes and no recursion into elements (an absent/empty
slice included); a byte ARRAY instead falls through to the general element
loop and is encoded element-wise. -/
theorem c3_amended (p : FormParser) (n t : String) (bs : List Nat)
    (h1 : t ≠ p.ignoreFlag) (h2 : t ≠ "") :
    parse p (.vStruct [(n, t, .vBytes bs)]) = .ok [⟨t, base64Encode bs⟩] := by
  rw [parse_single p n t (.vBytes bs) h1 h2 rfl]
  rfl

/-- Witness for C3 (amended) at the spec's concrete example: bytes `"AB"`
(0x41 0x42) under tag `data` yield exactly `{"data": "QUI="}`. -/
theorem c3_witness :
    parse Default (.vStruct [("Data", "data", .vBytes [65, 66])]) =
      .ok [⟨"data", "QUI="⟩] :=
  c3_amended Default "Data" "data" [65, 66] (by decide) (by decide)

/-- Counterexample to claim C1: the claim quantifies over every field holding
a sequence of strings, but the join branch of `encodeSlice` is entered
through the type assertion `v.Interface().([]string)`, which fails for a
string array such as `[3]string{"a","b","c"}`; under tag `items,join` the
array takes the general element loop, the unsplit tag embedded in the
indexed keys — not the single joined pair the claim predicts. -/
theorem c1_counterexample :
    parse Default (.vStruct [("Items", "items,join", .vArray [.vStr "a", .vStr "b", .vStr "c"])]) =
      .ok [⟨"items,join.0", "a"⟩, ⟨"items,join.1", "b"⟩, ⟨"items,join.2", "c"⟩] ∧
    ([KV.mk "items,join.0" "a", KV.mk "items,join.1" "b", KV.mk "items,join.2" "c"] : List KV) ≠
      [KV.mk "items" "a,b,c"] :=
  ⟨rfl, by decide⟩

/-- Claim C1 as amended: for every field of exact slice type `[]string` whose
tag's second comma-separated segment is `join`, encoding produces exactly one
pair whose key is the tag's first segment and whose value is the elements
joined with a literal comma, with no indexed pairs; a string ARRAY (or any
other sequence merely containing strings) is instead encoded element-wise
under indexed keys that embed the unsplit tag. -/
theorem c1_amended (p : FormParser) (n t : String) (ss : List String)
    (h1 : t ≠ p.ignoreFlag)
    (h2 : (splitComma t).length > 1) (h3 : (splitComma t).getD 1 "" = "join") :
    parse p (.vStruct [(n, t, .vStrSlice ss)]) =
      .ok [⟨(splitComma t).getD 0 "", joinComma ss⟩] := by
  have ht : t ≠ "" := by
    intro h
    rw [h] at h2
    have : splitComma "" = [""] := rfl
    rw [this] at h2
    simp at h2
  rw [parse_single p n t (.vStrSlice ss) h1 ht rfl]
  simp only [encode, h2, h3, and_self, if_true]

/-- Witness for C1 (amended) at the spec's concrete example: `[]string`
content `["a","b","c"]` under tag `items,join` yields exactly
`{"items": "a,b,c"}`. -/
theorem c1_witness :
    parse Default (.vStruct [("Items", "items,join", .vStrSlice ["a", "b", "c"])]) =
      .ok [⟨"items", "a,b,c"⟩] :=
  c1_amended Default "Items" "items,join" ["a", "b", "c"] (by decide) (by decide) (by decide)

/-- The general element loop on a slice of signed integers starting at index
`i`: element `j` surfaces under the plainly concatenated key
`tagK ++ "." ++ j`, whatever `tagK` is. -/
theorem encodeSliceElems_vInt (p : FormParser) (tagK : String) :
    ∀ (ns : List Int) (i : Nat),
      encodeSliceElems p tagK (ns.map Value.vInt) i =
        .ok ((List.enumFrom i ns).map fun q => ⟨tagK ++ "." ++ toString q.1, toString q.2⟩)
  | [], _ => rfl
  | n :: rest, i => by
      simp only [List.map_cons, encodeSliceElems, encode]
      rw [encodeSliceElems_vInt p tagK rest (i + 1)]
      simp [List.enumFrom_cons]

/-- Counterexample to claim C2: the synthesized element keys are NOT built
through the key-composition rule — a sequence field whose own effective key
is the suppression marker `...` still prefixes its elements with the marker:
the produced key is `"..." ++ ".0"`, carrying the `...` prefix the claim says
is absent. -/
theorem c2_counterexample :
    parse Default (.vStruct [("E", "...", .vSlice [.vInt 5])]) =
      .ok [⟨"..." ++ ".0", "5"⟩] ∧
    ("..." ++ ".0") ≠ "0" :=
  ⟨rfl, by decide⟩

/-- Claim C2 as amended: each element at zero-based index `i` of a sequence
encoded under the general case is encoded with the synthesized child key
`parentKey ++ "." ++ i` by plain string concatenation, for every parent key
uniformly — the suppression marker is not consulted at the sequence
boundary, so a sequence keyed `...` yields element keys `....i`. -/
theorem c2_amended (p : FormParser) (n t : String) (ns : List Int)
    (h1 : t ≠ p.ignoreFlag) (h2 : t ≠ "") :
    parse p (.vStruct [(n, t, .vSlice (ns.map Value.vInt))]) =
      .ok ((List.enumFrom 0 ns).map fun q => ⟨t ++ "." ++ toString q.1, toString q.2⟩) := by
  rw [parse_single p n t (.vSlice (ns.map Value.vInt)) h1 h2 rfl]
  exact encodeSliceElems_vInt p t ns 0

/-- Witness for C2 (amended): a two-element `[]int` under tag `items` yields
`items.0`, `items.1`, and under the suppression marker the keys keep the
marker as prefix: `....0`. -/
theorem c2_witness :
    parse Default (.vStruct [("E", "items", .vSlice [.vInt 7, .vInt 8])]) =
      .ok [⟨"items.0", "7"⟩, ⟨"items.1", "8"⟩] ∧
    parse Default (.vStruct [("E", "...", .vSlice [.vInt 5])]) =
      .ok [⟨"....0", "5"⟩] :=
  ⟨c2_amended Default "E" "items" [7, 8] (by decide) (by decide),
   c2_amended Default "E" "..." [5] (by decide) (by decide)⟩

/-- A field whose value eliminates to the Invalid value (a nil pointer,
possibly under several pointer layers) is skipped by the field loop
(parser.go:101-107), at any position. -/
theorem parseFields_skipField (p : FormParser) (n t : String) (v : Value)
    (h : unwrapPtr v = .vInvalid) :
    ∀ (fs gs : List (String × String × Value)),
      parseFields p (fs ++ (n, t, v) :: gs) = parseFields p (fs ++ gs)
  | [], gs => by
      simp [parseFields, h, Value.isInvalid]
  | (m, s, w) :: rest, gs => by
      simp only [List.cons_append, parseFields, List.append_eq]
      rw [parseFields_skipField p n t v h rest gs]

/-- Claim C6: a pointer/optional struct field whose value is absent — nil
after repeatedly unwrapping pointer layers — contributes zero KV pairs and
never makes the encode call fail: the whole parse result is exactly that of
the struct without the field. -/
theorem c6_theorem (p : FormParser) (fs gs : List (String × String × Value))
    (n t : String) (v : Value) (h : unwrapPtr v = .vInvalid) :
    parse p (.vStruct (fs ++ (n, t, v) :: gs)) = parse p (.vStruct (fs ++ gs)) :=
  parseFields_skipField p n t v h fs gs

/-- Witness for C6: a doubly-wrapped nil pointer field between two live
fields contributes nothing and the call succeeds. -/
theorem c6_witness :
    parse Default (.vStruct ([("A", "a", .vStr "1")] ++
      ("P", "p", .vPtr (some (.vPtr none))) :: [("B", "b", .vStr "2")])) =
      parse Default (.vStruct ([("A", "a", .vStr "1")] ++ [("B", "b", .vStr "2")])) ∧
    parse Default (.vStruct ([("A", "a", .vStr "1")] ++ [("B", "b", .vStr "2")])) =
      .ok [⟨"a", "1"⟩, ⟨"b", "2"⟩] :=
  ⟨c6_theorem Default [("A", "a", .vStr "1")] [("B", "b", .vStr "2")] "P" "p"
      (.vPtr (some (.vPtr none))) rfl,
   rfl⟩

/-- Claim C7: a mapping-typed field encodes each entry by recursively
encoding its key and its value with an empty working key and emitting the
full cross product of the two pair lists, each output pair keyed by the
composition of the field's effective key with the rendered key text
(`t ++ "." ++ keyKV.value`, or `keyKV.value` alone when the effective key is
`...`), carrying the rendered value text; remaining entries follow. -/
theorem c7_theorem (p : FormParser) (n t : String) (k val : Value)
    (rest : List (Value × Value)) (kks vvs restKVs : List KV)
    (h1 : t ≠ p.ignoreFlag) (h2 : t ≠ "")
    (hk : encode p k "" = .ok kks) (hv : encode p val "" = .ok vvs)
    (hr : encodeMapEntries p rest t = .ok restKVs) :
    parse p (.vStruct [(n, t, .vMap ((k, val) :: rest))]) =
      .ok ((kks.flatMap fun kk => vvs.map fun vl =>
            if t = "..." then KV.mk kk.V vl.V else KV.mk (t ++ "." ++ kk.V) vl.V) ++ restKVs) := by
  rw [parse_single p n t (.vMap ((k, val) :: rest)) h1 h2 rfl]
  show encodeMapEntries p ((k, val) :: rest) t = _
  simp only [encodeMapEntries, hk, hv, hr]

/-- Witness for C7: a map field tagged `i` with a single entry whose key
renders as `m` and whose value is a two-field struct (a composite value
producing two pairs) emits the two cross-product pairs `i.m`. -/
theorem c7_witness :
    parse Default (.vStruct [("I", "i",
        .vMap [(.vStr "m", .vStruct [("A", "a", .vStr "1"), ("B", "b", .vStr "2")])])]) =
      .ok [⟨"i.m", "1"⟩, ⟨"i.m", "2"⟩] :=
  c7_theorem Default "I" "i" (.vStr "m")
    (.vStruct [("A", "a", .vStr "1"), ("B", "b", .vStr "2")]) []
    [⟨"", "m"⟩] [⟨".a", "1"⟩, ⟨".b", "2"⟩] []
    (by decide) (by decide) rfl rfl rfl

/-- Reading back a single overwriting assignment from the association-list
model of a Go `map[string]string`. -/
theorem mapGet_mapAssign (k' v k : String) :
    ∀ m : List KV, mapGet (mapAssign m k' v) k = if k' = k then some v else mapGet m k
  | [] => by
      by_cases h : k' = k <;> simp [mapAssign, mapGet, h]
  | kv :: rest => by
      by_cases h1 : kv.K = k'
      · by_cases h2 : k' = k
        · simp [mapAssign, mapGet, h1, h2]
        · have h3 : kv.K ≠ k := by rw [h1]; exact h2
          simp [mapAssign, mapGet, h1, h2, h3]
      · by_cases h2 : k' = k
        · subst h2
          simp [mapAssign, mapGet, h1, mapGet_mapAssign k' v k' rest]
        · simp [mapAssign, mapGet, h1, h2, mapGet_mapAssign k' v k rest]

/-- Folding an ordered pair list into the map model realises last-write-wins
lookup: generalised over the accumulator. -/
theorem mapGet_foldl (k : String) :
    ∀ (kvs : List KV) (m : List KV),
      mapGet (kvs.foldl (fun m kv => mapAssign m kv.K kv.V) m) k =
        match lastWins kvs k with
        | some v => some v
        | none => mapGet m k
  | [], m => by simp [lastWins]
  | kv :: rest, m => by
      simp only [List.foldl_cons, lastWins]
      rw [mapGet_foldl k rest (mapAssign m kv.K kv.V)]
      cases hl : lastWins rest k with
      | some v => simp
      | none =>
          rw [mapGet_mapAssign kv.K kv.V k m]
          by_cases h : kv.K = k <;> simp [h]

/-- Claim C8: `ToMap` returns exactly the mapping obtained by folding the
ordered KV sequence of `parse` into a key-unique map with last-write-wins:
every key maps to the value of the last pair of the sequence bearing it, and
keys absent from the sequence are absent from the map. -/
theorem c8_theorem (p : FormParser) (v : Value) (kvs : List KV)
    (h : parse p v = .ok kvs) :
    ToMap p v = .ok (kvs.foldl (fun m kv => mapAssign m kv.K kv.V) []) ∧
    ∀ k, mapGet (kvs.foldl (fun m kv => mapAssign m kv.K kv.V) []) k = lastWins kvs k := by
  constructor
  · simp [ToMap, h]
  · intro k
    rw [mapGet_foldl k kvs []]
    cases hl : lastWins kvs k <;> simp [mapGet]

/-- Witness for C8: two fields sharing the output key `x` — the map holds the
later value, and an unused key is absent. -/
theorem c8_witness :
    ToMap Default (.vStruct [("A", "x", .vStr "1"), ("B", "x", .vStr "2")]) =
      .ok [⟨"x", "2"⟩] ∧
    mapGet [⟨"x", "2"⟩] "x" = lastWins [⟨"x", "1"⟩, ⟨"x", "2"⟩] "x" ∧
    mapGet [⟨"x", "2"⟩] "y" = lastWins [⟨"x", "1"⟩, ⟨"x", "2"⟩] "y" := by
  have h := c8_theorem Default (.vStruct [("A", "x", .vStr "1"), ("B", "x", .vStr "2")])
    [⟨"x", "1"⟩, ⟨"x", "2"⟩] rfl
  exact ⟨h.1, h.2 "x", h.2 "y"⟩

/-- A tag different from the ignore flag never drops the field. -/
theorem fieldTag_not_drop (p : FormParser) (n t : String) (h : t ≠ p.ignoreFlag) :
    (fieldTag p n t).2 = false := by
  by_cases h2 : t = ""
  · subst h2
    simp [fieldTag, h]
  · simp [fieldTag, h, h2]

mutual

/-- Every error `encode` can produce is the unsupported-kind one: the only
failure point of the whole recursive encoder is the missing-encoder panic
(parser.go:137-139). -/
theorem encode_error_unsupported (p : FormParser) :
    ∀ (v : Value) (tagK : String) (e : EncodeError),
      encode p v tagK = .error e → e = EncodeError.unsupportedKind
  | .vPtr (some w), tagK, e, h => encode_error_unsupported p w tagK e h
  | .vPtr none, _, _, h => by simp [encode] at h
  | .vInvalid, _, _, h => by simp [encode] at h
  | .vStr _, _, _, h => by simp [encode] at h
  | .vBool _, _, _, h => by simp [encode] at h
  | .vInt _, _, _, h => by simp [encode] at h
  | .vUint _, _, _, h => by simp [encode] at h
  | .vBytes _, _, _, h => by simp [encode] at h
  | .vStrSlice ss, tagK, e, h => by
      simp only [encode] at h
      split at h <;> simp at h
  | .vSlice elems, tagK, e, h => encodeSliceElems_error_unsupported p tagK elems 0 e h
  | .vArray elems, tagK, e, h => encodeSliceElems_error_unsupported p tagK elems 0 e h
  | .vStruct fields, tagK, e, h => by
      simp only [encode] at h
      cases hf : parseFields p fields with
      | error e2 =>
          rw [hf] at h
          simp only [Except.error.injEq] at h
          exact h ▸ parseFields_error_unsupported p fields e2 hf
      | ok kvs =>
          rw [hf] at h
          simp at h
  | .vMap entries, tagK, e, h => encodeMapEntries_error_unsupported p entries tagK e h
  | .vFunc, _, e, h => by
      simp only [encode, Except.error.injEq] at h
      exact h.symm

/-- Every error of the field loop is the unsupported-kind one. -/
theorem parseFields_error_unsupported (p : FormParser) :
    ∀ (fields : List (String × String × Value)) (e : EncodeError),
      parseFields p fields = .error e → e = EncodeError.unsupportedKind
  | [], _, h => by simp [parseFields] at h
  | (n, t, fv) :: rest, e, h => by
      simp only [parseFields] at h
      by_cases h1 : (unwrapPtr fv).isInvalid = true
      · rw [if_pos h1] at h
        exact parseFields_error_unsupported p rest e h
      · rw [if_neg h1] at h
        by_cases h2 : (fieldTag p n t).2 = true
        · rw [if_pos h2] at h
          exact parseFields_error_unsupported p rest e h
        · rw [if_neg h2] at h
          cases he : encode p fv (fieldTag p n t).1 with
          | error e2 =>
              rw [he] at h
              simp only [Except.error.injEq] at h
              exact h ▸ encode_error_unsupported p fv (fieldTag p n t).1 e2 he
          | ok kvs =>
              rw [he] at h
              cases hr : parseFields p rest with
              | error e2 =>
                  rw [hr] at h
                  simp only [Except.error.injEq] at h
                  exact h ▸ parseFields_error_unsupported p rest e2 hr
              | ok kvs2 =>
                  rw [hr] at h
                  simp at h

/-- Every error of the general element loop is the unsupported-kind one. -/
theorem encodeSliceElems_error_unsupported (p : FormParser) (tagK : String) :
    ∀ (elems : List Value) (i : Nat) (e : EncodeError),
      encodeSliceElems p tagK elems i = .error e → e = EncodeError.unsupportedKind
  | [], _, _, h => by simp [encodeSliceElems] at h
  | el :: rest, i, e, h => by
      simp only [encodeSliceElems] at h
      cases he : encode p el (tagK ++ "." ++ toString i) with
      | error e2 =>
          rw [he] at h
          simp only [Except.error.injEq] at h
          exact h ▸ encode_error_unsupported p el (tagK ++ "." ++ toString i) e2 he
      | ok kvs =>
          rw [he] at h
          cases hr : encodeSliceElems p tagK rest (i + 1) with
          | error e2 =>
              rw [hr] at h
              simp only [Except.error.injEq] at h
              exact h ▸ encodeSliceElems_error_unsupported p tagK rest (i + 1) e2 hr
          | ok kvs2 =>
              rw [hr] at h
              simp at h

/-- Every error of the map-entry loop is the unsupported-kind one. -/
theorem encodeMapEntries_error_unsupported (p : FormParser) :
    ∀ (entries : List (Value × Value)) (tagK : String) (e : EncodeError),
      encodeMapEntries p entries tagK = .error e → e = EncodeError.unsupportedKind
  | [], _, _, h => by simp [encodeMapEntries] at h
  | (k, val) :: rest, tagK, e, h => by
      simp only [encodeMapEntries] at h
      cases hk : encode p k "" with
      | error e2 =>
          rw [hk] at h
          simp only [Except.error.injEq] at h
          exact h ▸ encode_error_unsupported p k "" e2 hk
      | ok keyPair =>
          rw [hk] at h
          cases hv : encode p val "" with
          | error e2 =>
              rw [hv] at h
              simp only [Except.error.injEq] at h
              exact h ▸ encode_error_unsupported p val "" e2 hv
          | ok valPair =>
              rw [hv] at h
              cases hr : encodeMapEntries p rest tagK with
              | error e2 =>
                  rw [hr] at h
                  simp only [Except.error.injEq] at h
                  exact h ▸ encodeMapEntries_error_unsupported p rest tagK e2 hr
              | ok kvs2 =>
                  rw [hr] at h
                  simp at h

end

/-- Inserting a field of unsupported kind at any position of a field list
whose preceding fields encode successfully turns the whole result into the
unsupported-kind error — no partial pair list survives. -/
theorem parseFields_append_vFunc (p : FormParser) (n t : String)
    (gs : List (String × String × Value)) (hND : (fieldTag p n t).2 = false) :
    ∀ (fs : List (String × String × Value)) (kvs0 : List KV),
      parseFields p fs = .ok kvs0 →
      parseFields p (fs ++ (n, t, Value.vFunc) :: gs) = .error .unsupportedKind
  | [], _, _ => by
      simp only [List.nil_append, parseFields, unwrapPtr, Value.isInvalid, hND,
        Bool.false_eq_true, if_false]
      rfl
  | (m, s, w) :: rest, kvs0, hok => by
      simp only [parseFields] at hok
      simp only [List.cons_append, parseFields, List.append_eq]
      by_cases hInv : (unwrapPtr w).isInvalid = true
      · rw [if_pos hInv] at hok ⊢
        exact parseFields_append_vFunc p n t gs hND rest kvs0 hok
      · rw [if_neg hInv] at hok ⊢
        by_cases hDrop : (fieldTag p m s).2 = true
        · rw [if_pos hDrop] at hok ⊢
          exact parseFields_append_vFunc p n t gs hND rest kvs0 hok
        · rw [if_neg hDrop] at hok ⊢
          cases he : encode p w (fieldTag p m s).1 with
          | error e2 =>
              rw [he] at hok
              simp at hok
          | ok kvs1 =>
              rw [he] at hok
              cases hr : parseFields p rest with
              | error e2 =>
                  rw [hr] at hok
                  simp at hok
              | ok kvs2 =>
                  rw [parseFields_append_vFunc p n t gs hND rest kvs2 hr]

/-- Claim C5: a value of a kind with no registered encoder anywhere among the
fields makes the whole encode call fail with the `UnsupportedKind` error and
nothing else: every error the encoder can raise is `UnsupportedKind`, and a
function-kinded field at any position — whatever well-encodable fields
surround it — aborts `parse` and `ToMap` with that error, so no partial KV
list is observable. -/
theorem c5_theorem (p : FormParser) :
    (∀ (v : Value) (tagK : String) (e : EncodeError),
        encode p v tagK = .error e → e = EncodeError.unsupportedKind) ∧
    (∀ (fs gs : List (String × String × Value)) (n t : String) (kvs0 : List KV),
        t ≠ p.ignoreFlag → parse p (.vStruct fs) = .ok kvs0 →
        parse p (.vStruct (fs ++ (n, t, .vFunc) :: gs)) = .error .unsupportedKind ∧
        ToMap p (.vStruct (fs ++ (n, t, .vFunc) :: gs)) = .error .unsupportedKind) := by
  refine ⟨encode_error_unsupported p, fun fs gs n t kvs0 h1 h2 => ?_⟩
  have habort : parse p (.vStruct (fs ++ (n, t, .vFunc) :: gs)) = .error .unsupportedKind :=
    parseFields_append_vFunc p n t gs (fieldTag_not_drop p n t h1) fs kvs0 h2
  exact ⟨habort, by simp [ToMap, habort]⟩

/-- Witness for C5: a function-kinded field between two well-encodable fields
aborts both `parse` and `ToMap` with the unsupported-kind error. -/
theorem c5_witness :
    parse Default (.vStruct ([("A", "a", .vStr "x")] ++
      ("F", "f", .vFunc) :: [("B", "b", .vBool true)])) = .error .unsupportedKind ∧
    ToMap Default (.vStruct ([("A", "a", .vStr "x")] ++
      ("F", "f", .vFunc) :: [("B", "b", .vBool true)])) = .error .unsupportedKind :=
  (c5_theorem Default).2 [("A", "a", .vStr "x")] [("B", "b", .vBool true)] "F" "f"
    [⟨"a", "x"⟩] (by decide) rfl

end formparser
